import Mathlib

/-!
Shallow embedding of the two CGI sample servers (`search.c`, the Query
Responder, and `auth.c`, the Token Issuer) and proofs of the behavioural
claims about them.  Request buffers and produced texts are modelled as
`List Char` (the bytes of the C string up to its terminating zero byte);
machine integers printed with `%d`/`%ld` are modelled as `Nat` rendered
in decimal.
-/

/-- Model of C `strstr hay needle`: returns the suffix of `hay` starting at
the first occurrence of `needle`, or `none` when `needle` does not occur. -/
def cStrstr : List Char → List Char → Option (List Char)
  | [], needle => if needle.isPrefixOf ([] : List Char) then some [] else none
  | c :: t, needle =>
    if needle.isPrefixOf (c :: t) then some (c :: t) else cStrstr t needle

/-- The guard of the copy loop in both servers: keep copying while the
character is neither a space nor an ampersand (the zero byte is the end of
the modelled list). -/
def keepChar (c : Char) : Bool := !(c == ' ' || c == '&')

/-- The copy loop `while (p[i] && p[i] != ' ' && p[i] != '&' && i < 255)`:
characters after the field marker up to the first stop character, capped at
255 characters. -/
def copyParam (rest : List Char) : List Char :=
  (rest.takeWhile keepChar).take 255

/-- Parameter extraction shared by both servers: `strstr(buffer, "GET ")`,
then `strstr(query_start, fm)`, then the bounded copy loop; the default
initialiser of the 256-byte buffer is returned when either search fails. -/
def extractParam (fm d buf : List Char) : List Char :=
  match cStrstr buf ("GET ".toList) with
  | none => d
  | some g =>
    match cStrstr g fm with
    | none => d
    | some s => copyParam (s.drop fm.length)

/-- The Query Responder's extraction (`search.c` main loop, marker `q=`,
default `"default"`). -/
def searchQuery (buf : List Char) : List Char :=
  extractParam ("q=".toList) ("default".toList) buf

/-- The Token Issuer's extraction (`auth.c` main loop, marker `user=`,
default `"anonymous"`). -/
def authUser (buf : List Char) : List Char :=
  extractParam ("user=".toList) ("anonymous".toList) buf

/-- `pat` occurs in `hay` at position `i` and at no earlier position. -/
def FirstOccur (pat hay : List Char) (i : Nat) : Prop :=
  pat.isPrefixOf (hay.drop i) = true ∧
    ∀ k < i, pat.isPrefixOf (hay.drop k) = false

instance (pat hay : List Char) (i : Nat) : Decidable (FirstOccur pat hay i) :=
  inferInstanceAs (Decidable (_ ∧ _))

/-- Decimal digit character, as produced by printf. -/
def digitChar (d : Nat) : Char := Char.ofNat (48 + d)

/-- Fuel-driven decimal rendering; the fuel only serves structural
termination and is irrelevant once it exceeds the number. -/
def natDigitsF : Nat → Nat → List Char
  | 0, _ => []
  | f + 1, n =>
    if n < 10 then [digitChar n]
    else natDigitsF f (n / 10) ++ [digitChar (n % 10)]

/-- Decimal rendering of a nonnegative integer, as printf `%d` / `%ld`
renders the (always nonnegative here) pid and time values. -/
def natDigits (n : Nat) : List Char := natDigitsF (n + 1) n

/-- Value of a run of decimal digit characters. -/
def parseVal (l : List Char) : Nat :=
  l.foldl (fun a c => 10 * a + (c.toNat - 48)) 0

/-- Fixed pieces of the Query Responder body template
`{"query": "%s", "results": ["result1", "result2", "result3"], "pid": %d, "timestamp": %ld}`. -/
def sBodyA : List Char := "\x7b\"query\": \"".toList

def sBodyB : List Char :=
  "\", \"results\": [\"result1\", \"result2\", \"result3\"], \"pid\": ".toList

def sBodyC : List Char := ", \"timestamp\": ".toList

def sBodyD : List Char := "\x7d".toList

/-- `search.c` body: `snprintf(body, sizeof(body), ...)` truncates the
formatted text to 511 characters (512-byte buffer, one byte for the
terminating zero). -/
def searchBody (q : List Char) (pid ts : Nat) : List Char :=
  (sBodyA ++ q ++ sBodyB ++ natDigits pid ++ sBodyC ++ natDigits ts ++ sBodyD).take 511

/-- Fixed pieces of the Token Issuer body template
`{"user": "%s", "token": "%s", "pid": %d, "expires": %ld}`. -/
def aBodyA : List Char := "\x7b\"user\": \"".toList

def aBodyB : List Char := "\", \"token\": \"".toList

def aBodyC : List Char := "\", \"pid\": ".toList

def aBodyD : List Char := ", \"expires\": ".toList

def aBodyE : List Char := "\x7d".toList

/-- `auth.c` body: the expiry printed is `time(NULL) + 3600`; truncation to
511 characters as for the Query Responder. -/
def authBody (u tok : List Char) (pid now : Nat) : List Char :=
  (aBodyA ++ u ++ aBodyB ++ tok ++ aBodyC ++ natDigits pid ++ aBodyD ++
    natDigits (now + 3600) ++ aBodyE).take 511

/-- Header text up to and including `Content-Length: ` (65 characters). -/
def hdrA : List Char :=
  "HTTP/1.1 200 OK\r\nContent-Type: application/json\r\nContent-Length: ".toList

/-- Header text after the length digits: terminator of the length line, the
`Connection: close` line, and the blank line (23 characters). -/
def hdrB : List Char := "\r\nConnection: close\r\n\r\n".toList

/-- `send_response`'s wrapping `snprintf(response, sizeof(response), ...)`:
the `Content-Length` printed is `strlen(body)` of the (already truncated)
body; the whole response is truncated to 1023 characters (1024-byte
buffer). Identical in both servers. -/
def httpResponse (body : List Char) : List Char :=
  (hdrA ++ natDigits body.length ++ hdrB ++ body).take 1023

/-- The 62-character alphabet of `generate_token` (`sizeof(charset) - 1`
excludes the terminating zero byte). -/
def charset : List Char :=
  "abcdefghijklmnopqrstuvwxyzABCDEFGHIJKLMNOPQRSTUVWXYZ0123456789".toList

/-- `generate_token(token, len)`: fills `len - 1` characters, each selected
by reducing a raw generator output modulo the alphabet size; `rnd i` is the
value of the `i`-th `rand()` call made by the loop. -/
def generate_token (rnd : Nat → Nat) (len : Nat) : List Char :=
  (List.range (len - 1)).map (fun i => charset.getD (rnd i % charset.length) 'a')

/-- Charset index selected for a raw generator output `r`
(`rand() % (sizeof(charset) - 1)`). -/
def selIdx (r : Nat) : Nat := r % charset.length

/-- Number of raw outputs `r < N` that select charset index `j`. -/
def selCount (N j : Nat) : Nat :=
  ((List.range N).filter (fun r => selIdx r == j)).length

/-- The CRLF-CRLF blank-line separator of the wire format. -/
def crlf2 : List Char := ['\r', '\n', '\r', '\n']

/-- Byte sequence after the first blank line of a response, as a reader of
the wire format sees it. -/
def respBody (resp : List Char) : Option (List Char) :=
  (cStrstr resp crlf2).map (fun s => s.drop 4)

/-- Value of the `Content-Length` header of a response: the decimal digit
run following the first occurrence of `Content-Length: `. -/
def respContentLength (resp : List Char) : Option Nat :=
  (cStrstr resp ("Content-Length: ".toList)).map
    (fun s => parseVal ((s.drop 16).takeWhile Char.isDigit))

/-- Observable actions of one server process. -/
inductive Event where
  | evSeed : Nat → Event
  | evRecv : List Char → Event
  | evSend : List Char → Event
  | evClose : Event
deriving DecidableEq

/-- Body of the accept loop after a successful `accept`: `recv` the request,
extract and format (folded into `respond`), `send`, `close`. -/
def handleConn (respond : List Char → List Char) (buf : List Char) : List Event :=
  [Event.evRecv buf, Event.evSend (respond buf), Event.evClose]

/-- The `while (1) { accept; if (fd < 0) continue; ... }` loop, driven by the
outcomes of successive `accept` calls: `none` is a failed accept, `some buf`
a connection whose request reads as `buf`. -/
def acceptLoop (respond : List Char → List Char) :
    List (Option (List Char)) → List Event
  | [] => []
  | none :: rest => acceptLoop respond rest
  | some buf :: rest => handleConn respond buf ++ acceptLoop respond rest

/-- The Query Responder's per-connection response. -/
def searchRespond (pid ts : Nat) (buf : List Char) : List Char :=
  httpResponse (searchBody (searchQuery buf) pid ts)

/-- The Token Issuer's per-connection response. -/
def authRespond (rnd : Nat → Nat) (pid now : Nat) (buf : List Char) : List Char :=
  httpResponse (authBody (authUser buf) (generate_token rnd 33) pid now)

/-- Success or failure of the four fallible startup system calls. -/
structure SysOutcomes where
  socketOk : Bool
  setsockoptOk : Bool
  bindOk : Bool
  listenOk : Bool

/-- Result of process startup before the accept loop. -/
inductive StartResult where
  | usageError : StartResult
  | fatalError : List Char → StartResult
  | listening : StartResult
deriving DecidableEq

/-- Startup of either server: argument-count check first, then socket,
`setsockopt`, bind, listen, each failure reported with its `perror` prefix
and ending the process. -/
def startup (argc : Nat) (sys : SysOutcomes) : StartResult :=
  if argc ≠ 2 then StartResult.usageError
  else if sys.socketOk = false then
    StartResult.fatalError ("Socket creation failed".toList)
  else if sys.setsockoptOk = false then
    StartResult.fatalError ("Setsockopt failed".toList)
  else if sys.bindOk = false then
    StartResult.fatalError ("Bind failed".toList)
  else if sys.listenOk = false then
    StartResult.fatalError ("Listen failed".toList)
  else StartResult.listening

/-- Exit status of the process as a function of how startup ended;
`none` means the accept loop runs (no exit). -/
def exitCode : StartResult → Option Nat
  | StartResult.usageError => some 1
  | StartResult.fatalError _ => some 1
  | StartResult.listening => none

/-- Whole-process event trace: usage check, optional single `srand` seeding
(the Token Issuer passes `some (time ^^^ pid)`, the Query Responder `none`),
then the accept loop only when startup reached the listening state. -/
def runServer (doSeed : Option Nat) (respond : List Char → List Char)
    (argc : Nat) (sys : SysOutcomes)
    (inputs : List (Option (List Char))) : List Event :=
  if argc ≠ 2 then []
  else
    (match doSeed with
     | some s => [Event.evSeed s]
     | none => []) ++
    (match startup argc sys with
     | StartResult.listening => acceptLoop respond inputs
     | _ => [])

/-- A request whose `q=` value runs to 300 characters. -/
def bigBuf : List Char := "GET /?q=".toList ++ List.replicate 300 'a'

/-- Body shape as literally written in the specification for the Query
Responder: no space after the commas separating the three result strings. -/
def claimedSearchBody (q : List Char) (pid ts : Nat) : List Char :=
  "\x7b\"query\": \"".toList ++ q ++
    "\", \"results\": [\"result1\",\"result2\",\"result3\"], \"pid\": ".toList ++
    natDigits pid ++ ", \"timestamp\": ".toList ++ natDigits ts ++ "\x7d".toList

theorem cStrstr_of_firstOccur (pat : List Char) :
    ∀ (hay : List Char) (i : Nat), FirstOccur pat hay i →
      cStrstr hay pat = some (hay.drop i) := by
  intro hay
  induction hay with
  | nil =>
    intro i h
    rcases h with ⟨h1, h2⟩
    cases i with
    | zero => simpa [cStrstr] using h1
    | succ i =>
      exfalso
      have h0 := h2 0 (Nat.succ_pos _)
      simp only [List.drop_nil] at h1 h0
      rw [h1] at h0
      exact Bool.noConfusion h0
  | cons c t ih =>
    intro i h
    rcases h with ⟨h1, h2⟩
    cases i with
    | zero =>
      simp only [List.drop_zero] at h1
      simp [cStrstr, h1]
    | succ i =>
      have h0 := h2 0 (Nat.succ_pos _)
      simp only [List.drop_zero] at h0
      have step : cStrstr (c :: t) pat = cStrstr t pat := by
        simp [cStrstr, h0]
      rw [step]
      have := ih i ⟨by simpa using h1, fun k hk => by simpa using h2 (k + 1) (by omega)⟩
      simpa using this

theorem cStrstr_eq_none (pat : List Char) :
    ∀ hay : List Char, (∀ k, pat.isPrefixOf (hay.drop k) = false) →
      cStrstr hay pat = none := by
  intro hay
  induction hay with
  | nil =>
    intro h
    have h0 := h 0
    simp only [List.drop_nil] at h0
    simp [cStrstr, h0]
  | cons c t ih =>
    intro h
    have h0 := h 0
    simp only [List.drop_zero] at h0
    have step : cStrstr (c :: t) pat = cStrstr t pat := by
      simp [cStrstr, h0]
    rw [step]
    exact ih fun k => by simpa using h (k + 1)

/-- If the `GET ` marker first occurs at `g` and the field marker first
occurs at `j` within the suffix from `g`, extraction returns the capped
copy of the characters after the field marker. -/
theorem extract_pos (fm d buf : List Char) (g j : Nat)
    (hg : FirstOccur ("GET ".toList) buf g)
    (hj : FirstOccur fm (buf.drop g) j) :
    extractParam fm d buf =
      (((buf.drop g).drop (j + fm.length)).takeWhile keepChar).take 255 := by
  unfold extractParam
  rw [cStrstr_of_firstOccur _ buf g hg]
  dsimp only
  rw [cStrstr_of_firstOccur fm (buf.drop g) j hj]
  simp [copyParam, List.drop_drop, Nat.add_assoc]

/-- When `GET ` never occurs, extraction returns the default. -/
theorem extract_noGet (fm d buf : List Char)
    (h : ∀ k, ("GET ".toList).isPrefixOf (buf.drop k) = false) :
    extractParam fm d buf = d := by
  unfold extractParam
  rw [cStrstr_eq_none _ buf h]

/-- When the field marker never occurs in the suffix starting at the first
`GET `, extraction returns the default. -/
theorem extract_noFm (fm d buf : List Char) (g : Nat)
    (hg : FirstOccur ("GET ".toList) buf g)
    (h : ∀ k, fm.isPrefixOf ((buf.drop g).drop k) = false) :
    extractParam fm d buf = d := by
  unfold extractParam
  rw [cStrstr_of_firstOccur _ buf g hg]
  dsimp only
  rw [cStrstr_eq_none fm (buf.drop g) h]

/-- A nonempty pattern never occurs in a buffer if it occurs at no position
up to the buffer's length. -/
theorem noOccur_of_bounded (pat hay : List Char) (hp : pat ≠ [])
    (h : ∀ k < hay.length, pat.isPrefixOf (hay.drop k) = false) :
    ∀ k, pat.isPrefixOf (hay.drop k) = false := by
  intro k
  by_cases hk : k < hay.length
  · exact h k hk
  · have : hay.drop k = [] := List.drop_eq_nil_of_le (by omega)
    rw [this]
    cases pat with
    | nil => exact absurd rfl hp
    | cons c t => rfl

theorem natDigitsF_congr : ∀ (f f' n : Nat), n < f → n < f' →
    natDigitsF f n = natDigitsF f' n := by
  intro f
  induction f with
  | zero => intro f' n h; omega
  | succ f ih =>
    intro f' n hf hf'
    cases f' with
    | zero => omega
    | succ f' =>
      simp only [natDigitsF]
      by_cases h10 : n < 10
      · simp [h10]
      · simp only [if_neg h10]
        have hd : n / 10 < n := Nat.div_lt_self (by omega) (by omega)
        rw [ih f' (n / 10) (by omega) (by omega)]

/-- Unfolding law of the decimal rendering. -/
theorem natDigits_unfold (n : Nat) :
    natDigits n =
      if n < 10 then [digitChar n]
      else natDigits (n / 10) ++ [digitChar (n % 10)] := by
  unfold natDigits
  rw [natDigitsF]
  by_cases h10 : n < 10
  · simp [h10]
  · simp only [if_neg h10]
    have hd : n / 10 < n := Nat.div_lt_self (by omega) (by omega)
    rw [natDigitsF_congr n (n / 10 + 1) (n / 10) (by omega) (by omega)]

theorem digitChar_isDigit (d : Nat) (h : d < 10) : (digitChar d).isDigit = true :=
  (by decide : ∀ x < 10, (digitChar x).isDigit = true) d h

theorem digitChar_toNat (d : Nat) (h : d < 10) : (digitChar d).toNat = 48 + d :=
  (by decide : ∀ x < 10, (digitChar x).toNat = 48 + x) d h

theorem natDigits_ne_nil (n : Nat) : natDigits n ≠ [] := by
  rw [natDigits_unfold]
  by_cases h10 : n < 10 <;> simp [h10]

theorem natDigits_digits (n : Nat) : ∀ c ∈ natDigits n, c.isDigit = true := by
  induction n using Nat.strong_induction_on with
  | _ n ih =>
    rw [natDigits_unfold]
    by_cases h10 : n < 10
    · simp only [if_pos h10, List.mem_singleton]
      intro c hc
      subst hc
      exact digitChar_isDigit n h10
    · simp only [if_neg h10]
      intro c hc
      rcases List.mem_append.mp hc with h1 | h2
      · exact ih (n / 10) (Nat.div_lt_self (by omega) (by omega)) c h1
      · have hc' : c = digitChar (n % 10) := by simpa using h2
        subst hc'
        exact digitChar_isDigit _ (Nat.mod_lt _ (by omega))

theorem natDigits_len (k : Nat) : ∀ n, n < 10 ^ (k + 1) →
    (natDigits n).length ≤ k + 1 := by
  induction k with
  | zero =>
    intro n h
    rw [natDigits_unfold]
    have h10 : n < 10 := by simpa using h
    simp [h10]
  | succ k ih =>
    intro n h
    rw [natDigits_unfold]
    by_cases h10 : n < 10
    · simp [h10]
    · simp only [if_neg h10, List.length_append, List.length_cons,
        List.length_nil]
      have hdiv : n / 10 < 10 ^ (k + 1) := by
        rw [Nat.div_lt_iff_lt_mul (by omega : 0 < 10)]
        calc n < 10 ^ (k + 1 + 1) := h
        _ = 10 ^ (k + 1) * 10 := by rw [pow_succ]
      have := ih (n / 10) hdiv
      omega

theorem foldl_natDigits (n : Nat) : ∀ a : Nat,
    (natDigits n).foldl (fun a c => 10 * a + (c.toNat - 48)) a =
      a * 10 ^ (natDigits n).length + n := by
  induction n using Nat.strong_induction_on with
  | _ n ih =>
    intro a
    rw [natDigits_unfold]
    by_cases h10 : n < 10
    · simp only [if_pos h10, List.foldl_cons, List.foldl_nil, List.length_cons,
        List.length_nil, pow_one, digitChar_toNat n h10]
      omega
    · simp only [if_neg h10, List.foldl_append, List.foldl_cons, List.foldl_nil,
        List.length_append, List.length_cons, List.length_nil]
      rw [ih (n / 10) (Nat.div_lt_self (by omega) (by omega)) a]
      rw [digitChar_toNat (n % 10) (Nat.mod_lt _ (by omega))]
      have hmod : 10 * (n / 10) + n % 10 = n := by omega
      calc 10 * (a * 10 ^ (natDigits (n / 10)).length + n / 10) + (48 + n % 10 - 48)
          = a * (10 ^ (natDigits (n / 10)).length * 10) + (10 * (n / 10) + n % 10) := by ring_nf; omega
        _ = a * 10 ^ ((natDigits (n / 10)).length + (0 + 1)) + n := by
            rw [hmod]
            have hp : (natDigits (n / 10)).length + (0 + 1) =
                (natDigits (n / 10)).length + 1 := by omega
            rw [hp, pow_succ]

theorem parseVal_natDigits (n : Nat) : parseVal (natDigits n) = n := by
  have := foldl_natDigits n 0
  simpa [parseVal] using this

theorem takeWhile_all_append (p : Char → Bool) :
    ∀ X : List Char, (∀ c ∈ X, p c = true) → ∀ (y : Char) (Y : List Char),
      p y = false → (X ++ y :: Y).takeWhile p = X := by
  intro X
  induction X with
  | nil =>
    intro _ y Y hy
    simp [List.takeWhile_cons, hy]
  | cons c t ih =>
    intro h y Y hy
    have hc := h c (by simp)
    simp [List.takeWhile_cons, hc, ih (fun c hc => h c (by simp [hc])) y Y hy]

theorem pref_of_append_iff {pat A : List Char} (X : List Char)
    (h : pat.length ≤ A.length) : pat <+: (A ++ X) ↔ pat <+: A := by
  constructor
  · intro hp
    rw [List.prefix_iff_eq_take] at hp ⊢
    rw [List.take_append_eq_append_take, Nat.sub_eq_zero_of_le h] at hp
    simpa using hp
  · intro hp
    exact hp.trans (List.prefix_append A X)

theorem window_iff (pat A X : List Char) (k : Nat)
    (h : k + pat.length ≤ A.length) :
    (pat <+: ((A ++ X).drop k)) ↔ (pat <+: (A.drop k)) := by
  rw [List.drop_append_eq_append_drop, Nat.sub_eq_zero_of_le (by omega : k ≤ A.length),
    List.drop_zero]
  exact pref_of_append_iff X (by rw [List.length_drop]; omega)

theorem cons_not_pref_of_head {p : Char} (pt l : List Char)
    (h : l.head? ≠ some p) : ¬ ((p :: pt) <+: l) := by
  rintro ⟨t, ht⟩
  apply h
  rw [← ht]
  rfl

theorem drop_append_plus (A X : List Char) (m : Nat) :
    (A ++ X).drop (A.length + m) = X.drop m := by
  rw [List.drop_append_eq_append_drop, List.drop_eq_nil_of_le (by omega)]
  simp

theorem head_drop (l : List Char) (n : Nat) (h : n < l.length) :
    (l.drop n).head? = some l[n] := by
  rw [List.drop_eq_getElem_cons h]
  rfl

theorem charset_len : charset.length = 62 := by decide

theorem hdrA_len : hdrA.length = 65 := by decide

theorem hdrB_len : hdrB.length = 23 := by decide

theorem isPO_true {pat l : List Char} (h : pat <+: l) : pat.isPrefixOf l = true := by
  simpa using h

theorem isPO_false {pat l : List Char} (h : ¬ (pat <+: l)) :
    pat.isPrefixOf l = false := by
  cases hb : pat.isPrefixOf l
  · rfl
  · exact absurd (by simpa using hb) h

theorem not_pref_of_false {pat l : List Char} (h : pat.isPrefixOf l = false) :
    ¬ (pat <+: l) := by
  intro hp
  rw [isPO_true hp] at h
  exact Bool.noConfusion h

theorem crlf_not_at (X : List Char) (k : Nat) (hk : k < hdrA.length)
    (hc : (hdrA.drop k).head? ≠ some '\r') :
    ¬ (crlf2 <+: ((hdrA ++ X).drop k)) := by
  have hsplit : (hdrA ++ X).drop k = hdrA.drop k ++ X := by
    rw [List.drop_append_eq_append_drop, Nat.sub_eq_zero_of_le (le_of_lt hk),
      List.drop_zero]
  rw [hsplit]
  show ¬ (('\r' :: ['\n', '\r', '\n']) <+: (hdrA.drop k ++ X))
  apply cons_not_pref_of_head
  rw [List.head?_append]
  cases hh : (hdrA.drop k).head? with
  | none =>
    exfalso
    rw [List.head?_eq_none_iff, List.drop_eq_nil_iff] at hh
    omega
  | some c =>
    rw [Option.or_some]
    intro habs
    exact hc (hh.trans habs)

theorem crlf_not_in_digits (D Y : List Char) (m : Nat) (hm : m < D.length)
    (hdig : ∀ c ∈ D, c.isDigit = true) :
    ¬ (crlf2 <+: ((D ++ Y).drop m)) := by
  have hsplit : (D ++ Y).drop m = D.drop m ++ Y := by
    rw [List.drop_append_eq_append_drop, Nat.sub_eq_zero_of_le (le_of_lt hm),
      List.drop_zero]
  rw [hsplit]
  show ¬ (('\r' :: ['\n', '\r', '\n']) <+: (D.drop m ++ Y))
  apply cons_not_pref_of_head
  rw [List.head?_append, head_drop D m hm, Option.or_some]
  intro habs
  have h1 : D[m] = '\r' := by simpa using habs
  have h2 := hdig D[m] (List.getElem_mem hm)
  rw [h1] at h2
  exact absurd h2 (by decide)

theorem httpResponse_eq (body : List Char) (hb : body.length ≤ 511) :
    httpResponse body = hdrA ++ natDigits body.length ++ hdrB ++ body := by
  unfold httpResponse
  apply List.take_of_length_le
  have hd3 : (natDigits body.length).length ≤ 3 :=
    natDigits_len 2 body.length
      (by have h1000 : (10 : Nat) ^ (2 + 1) = 1000 := by norm_num
          omega)
  simp only [List.length_append, hdrA_len, hdrB_len]
  omega

/-- The response built by `send_response` around a body of at most 511
characters splits at its first blank line exactly into the fixed header
with the body's length as `Content-Length`, followed by the body itself. -/
theorem respSplit (body : List Char) (hb : body.length ≤ 511) :
    respBody (httpResponse body) = some body ∧
      respContentLength (httpResponse body) = some body.length := by
  have hR : httpResponse body = hdrA ++ (natDigits body.length ++ (hdrB ++ body)) := by
    rw [httpResponse_eq body hb, List.append_assoc, List.append_assoc]
  have hdig : ∀ c ∈ natDigits body.length, c.isDigit = true := natDigits_digits _
  have hdropPos : (hdrA ++ (natDigits body.length ++ (hdrB ++ body))).drop
      (65 + (natDigits body.length).length + 19) = crlf2 ++ body := by
    have e : 65 + (natDigits body.length).length + 19 =
        hdrA.length + ((natDigits body.length).length + 19) := by
      rw [hdrA_len]; omega
    rw [e, drop_append_plus, drop_append_plus]
    rw [List.drop_append_eq_append_drop,
      Nat.sub_eq_zero_of_le (by rw [hdrB_len]; omega : 19 ≤ hdrB.length),
      List.drop_zero, show hdrB.drop 19 = crlf2 from by decide]
  have hnegB : ∀ k, k < 65 + (natDigits body.length).length + 19 →
      ¬ (crlf2 <+: ((hdrA ++ (natDigits body.length ++ (hdrB ++ body))).drop k)) := by
    intro k hk
    by_cases c1 : k < 62
    · have hw := window_iff crlf2 hdrA (natDigits body.length ++ (hdrB ++ body)) k
        (by rw [hdrA_len, show crlf2.length = 4 from rfl]; omega)
      rw [hw]
      exact not_pref_of_false
        ((by decide : ∀ x < 62, crlf2.isPrefixOf (hdrA.drop x) = false) k c1)
    · by_cases c2 : k < 65
      · have hk3 : k = 62 ∨ k = 63 ∨ k = 64 := by omega
        rcases hk3 with h | h | h <;> subst h <;>
          exact crlf_not_at _ _ (by rw [hdrA_len]; omega) (by decide)
      · by_cases c3 : k < 65 + (natDigits body.length).length
        · obtain ⟨m, hkm, hm⟩ :
              ∃ m, k = 65 + m ∧ m < (natDigits body.length).length :=
            ⟨k - 65, by omega, by omega⟩
          subst hkm
          have e : 65 + m = hdrA.length + m := by rw [hdrA_len]
          rw [e, drop_append_plus]
          exact crlf_not_in_digits _ _ m hm hdig
        · obtain ⟨j, hkj, hj⟩ :
              ∃ j, k = 65 + (natDigits body.length).length + j ∧ j < 19 :=
            ⟨k - (65 + (natDigits body.length).length), by omega, by omega⟩
          subst hkj
          have e : 65 + (natDigits body.length).length + j =
              hdrA.length + ((natDigits body.length).length + j) := by
            rw [hdrA_len]; omega
          rw [e, drop_append_plus, drop_append_plus]
          have hw := window_iff crlf2 hdrB body j
            (by rw [hdrB_len, show crlf2.length = 4 from rfl]; omega)
          rw [hw]
          exact not_pref_of_false
            ((by decide : ∀ x < 19, crlf2.isPrefixOf (hdrB.drop x) = false) j hj)
  have hFO : FirstOccur crlf2 (hdrA ++ (natDigits body.length ++ (hdrB ++ body)))
      (65 + (natDigits body.length).length + 19) :=
    ⟨isPO_true (by rw [hdropPos]; exact List.prefix_append crlf2 body),
     fun k hk => isPO_false (hnegB k hk)⟩
  have hstr := cStrstr_of_firstOccur crlf2 _ _ hFO
  have hrb : respBody (httpResponse body) = some body := by
    unfold respBody
    rw [hR, hstr, hdropPos]
    have h4 : (crlf2 ++ body).drop 4 = body := by
      rw [show (4 : Nat) = crlf2.length + 0 from rfl, drop_append_plus,
        List.drop_zero]
    simp [h4]
  have hCL49 : (hdrA ++ (natDigits body.length ++ (hdrB ++ body))).drop 49 =
      ("Content-Length: ".toList) ++ (natDigits body.length ++ (hdrB ++ body)) := by
    rw [List.drop_append_eq_append_drop,
      Nat.sub_eq_zero_of_le (by rw [hdrA_len]; omega : 49 ≤ hdrA.length),
      List.drop_zero, show hdrA.drop 49 = "Content-Length: ".toList from by decide]
  have hnegCL : ∀ k, k < 49 →
      ¬ (("Content-Length: ".toList) <+:
        ((hdrA ++ (natDigits body.length ++ (hdrB ++ body))).drop k)) := by
    intro k hk
    have hw := window_iff ("Content-Length: ".toList) hdrA
      (natDigits body.length ++ (hdrB ++ body)) k
      (by rw [hdrA_len, show ("Content-Length: ".toList).length = 16 from by decide]
          omega)
    rw [hw]
    exact not_pref_of_false
      ((by decide :
        ∀ x < 49, ("Content-Length: ".toList).isPrefixOf (hdrA.drop x) = false) k hk)
  have hFO2 : FirstOccur ("Content-Length: ".toList)
      (hdrA ++ (natDigits body.length ++ (hdrB ++ body))) 49 :=
    ⟨isPO_true (by rw [hCL49]; exact List.prefix_append _ _),
     fun k hk => isPO_false (hnegCL k hk)⟩
  have hstr2 := cStrstr_of_firstOccur ("Content-Length: ".toList) _ _ hFO2
  have hrcl : respContentLength (httpResponse body) = some body.length := by
    unfold respContentLength
    rw [hR, hstr2, hCL49]
    have h16 : (("Content-Length: ".toList ++
        (natDigits body.length ++ (hdrB ++ body))).drop 16) =
        natDigits body.length ++ (hdrB ++ body) := by
      rw [show (16 : Nat) = ("Content-Length: ".toList).length + 0 from by decide,
        drop_append_plus, List.drop_zero]
    have hsplitB : natDigits body.length ++ (hdrB ++ body) =
        natDigits body.length ++
          ('\r' :: ("\nConnection: close\r\n\r\n".toList ++ body)) := by
      rw [show hdrB = '\r' :: "\nConnection: close\r\n\r\n".toList from by decide]
      rfl
    have htw := takeWhile_all_append Char.isDigit (natDigits body.length) hdig '\r'
      ("\nConnection: close\r\n\r\n".toList ++ body) (by decide)
    simp only [Option.map_some']
    rw [h16, hsplitB, htw, parseVal_natDigits]
  exact ⟨hrb, hrcl⟩

theorem searchBody_len (q : List Char) (pid ts : Nat) :
    (searchBody q pid ts).length ≤ 511 := by
  unfold searchBody
  rw [List.length_take]
  omega

theorem authBody_len (u tok : List Char) (pid now : Nat) :
    (authBody u tok pid now).length ≤ 511 := by
  unfold authBody
  rw [List.length_take]
  omega

theorem httpResponse_len (b : List Char) : (httpResponse b).length ≤ 1023 := by
  unfold httpResponse
  rw [List.length_take]
  omega

theorem extractParam_len (fm d buf : List Char) (hd : d.length ≤ 255) :
    (extractParam fm d buf).length ≤ 255 := by
  unfold extractParam
  split
  · exact hd
  · split
    · exact hd
    · simp only [copyParam, List.length_take]
      omega

theorem acceptLoop_append (respond : List Char → List Char) :
    ∀ xs ys, acceptLoop respond (xs ++ ys) =
      acceptLoop respond xs ++ acceptLoop respond ys := by
  intro xs ys
  induction xs with
  | nil => rfl
  | cons o t ih =>
    cases o with
    | none => simpa [acceptLoop] using ih
    | some buf => simp [acceptLoop, ih, handleConn]

theorem acceptLoop_no_seed (respond : List Char → List Char) (s : Nat) :
    ∀ inputs, (acceptLoop respond inputs).count (Event.evSeed s) = 0 := by
  intro inputs
  induction inputs with
  | nil => rfl
  | cons o t ih =>
    cases o with
    | none => simpa [acceptLoop] using ih
    | some buf =>
      simp [acceptLoop, handleConn, List.count_cons, ih]

theorem selCount_succ (N j : Nat) :
    selCount (N + 1) j = selCount N j + (if N % 62 = j then 1 else 0) := by
  unfold selCount selIdx
  rw [List.range_succ, List.filter_append, List.length_append]
  simp [charset_len]
  split <;> simp_all

theorem selCount_closed : ∀ N j, j < 62 →
    selCount N j = N / 62 + (if j < N % 62 then 1 else 0) := by
  intro N
  induction N with
  | zero =>
    intro j hj
    simp [selCount]
  | succ N ih =>
    intro j hj
    rw [selCount_succ, ih j hj]
    by_cases h : N % 62 = j
    · rw [if_pos h]
      split_ifs <;> omega
    · rw [if_neg h]
      split_ifs <;> omega

/-- C1: for every request buffer in which `GET ` occurs (first occurrence at
`g`) and the field marker occurs at or after it (first occurrence at `j`
within the suffix), the extracted parameter is exactly the characters
following the marker up to the first space, `&`, buffer end, or 255th
character; when the `GET ` marker or the field marker is absent, the
extracted parameter is the fixed default. -/
theorem extractParam_spec (fm d buf : List Char) :
    (∀ g j, FirstOccur ("GET ".toList) buf g → FirstOccur fm (buf.drop g) j →
      extractParam fm d buf =
        (((buf.drop g).drop (j + fm.length)).takeWhile keepChar).take 255) ∧
    ((∀ k, ("GET ".toList).isPrefixOf (buf.drop k) = false) →
      extractParam fm d buf = d) ∧
    (∀ g, FirstOccur ("GET ".toList) buf g →
      (∀ k, fm.isPrefixOf ((buf.drop g).drop k) = false) →
      extractParam fm d buf = d) :=
  ⟨fun g j hg hj => extract_pos fm d buf g j hg hj,
   fun h => extract_noGet fm d buf h,
   fun g hg h => extract_noFm fm d buf g hg h⟩

theorem extractParam_spec_witness :
    searchQuery ("GET /?q=hello more".toList) = "hello".toList ∧
    searchQuery ("POST /x?q=1".toList) = "default".toList ∧
    authUser ("GET /plain".toList) = "anonymous".toList := by
  refine ⟨?_, ?_, ?_⟩
  · have h := (extractParam_spec ("q=".toList) ("default".toList)
      ("GET /?q=hello more".toList)).1 0 6 (by decide) (by decide)
    exact h.trans (by decide)
  · exact (extractParam_spec ("q=".toList) ("default".toList)
      ("POST /x?q=1".toList)).2.1
      (noOccur_of_bounded ("GET ".toList) ("POST /x?q=1".toList)
        (by decide) (by decide))
  · exact (extractParam_spec ("user=".toList) ("anonymous".toList)
      ("GET /plain".toList)).2.2 0 (by decide)
      (noOccur_of_bounded ("user=".toList) (("GET /plain".toList).drop 0)
        (by decide) (by decide))

/-- C9: the field marker is matched as a raw substring anywhere at or after
the first `GET `: `q=` inside `freq=` matches, markers inside header bytes
after the request line are used, and the first occurrence wins. -/
theorem marker_substring_spec :
    searchQuery ("GET /x?freq=5".toList) = "5".toList ∧
    searchQuery ("GET / HTTP/1.1\r\nCookie: q=headerval&x=1".toList) =
      "headerval".toList ∧
    authUser ("GET / HTTP/1.1\r\nC: user=bob&".toList) = "bob".toList ∧
    searchQuery ("GET /?q=first&q=second".toList) = "first".toList := by
  refine ⟨by decide, by decide, by decide, by decide⟩

/-- C10: the default appears only when a marker is absent; a present field
marker immediately followed by a space, `&`, or the buffer end yields the
empty string, not the default, and the JSON field is emitted empty. -/
theorem empty_param_spec :
    (∀ fm d buf g j, FirstOccur ("GET ".toList) buf g →
      FirstOccur fm (buf.drop g) j →
      ((((buf.drop g).drop (j + fm.length)).take 1).all
        (fun c => c == ' ' || c == '&')) = true →
      extractParam fm d buf = []) ∧
    searchQuery ("GET /x?q=&y".toList) = [] ∧
    authUser ("GET /x?user= z".toList) = [] ∧
    ([] : List Char) ≠ "default".toList ∧
    ([] : List Char) ≠ "anonymous".toList ∧
    searchBody [] 42 100 =
      ("\x7b\"query\": \"\", \"results\": [\"result1\", \"result2\", \"result3\"], \"pid\": 42, \"timestamp\": 100\x7d".toList) := by
  refine ⟨?_, by decide, by decide, by decide, by decide, by decide⟩
  intro fm d buf g j hg hj hstop
  rw [extract_pos fm d buf g j hg hj]
  cases hdr : (buf.drop g).drop (j + fm.length) with
  | nil => simp
  | cons c t =>
    rw [hdr] at hstop
    have hc : c = ' ' ∨ c = '&' := by simpa using hstop
    rcases hc with h | h <;> subst h <;> simp [List.takeWhile_cons, keepChar]

theorem empty_param_spec_witness :
    extractParam ("q=".toList) ("default".toList) ("GET /x?q=&y".toList) = [] :=
  empty_param_spec.1 ("q=".toList) ("default".toList) ("GET /x?q=&y".toList)
    0 7 (by decide) (by decide) (by decide)

/-- C3: a pre-delimiter value longer than 255 characters is truncated to
exactly its first 255 characters, and every text the servers build stays
within its C buffer: at most 255 characters of extracted parameter
(256-byte buffer), 511 of body (512-byte buffer), 1023 of response
(1024-byte buffer). -/
theorem truncation_safety_spec :
    (∀ fm d buf g j, FirstOccur ("GET ".toList) buf g →
      FirstOccur fm (buf.drop g) j →
      255 < (((buf.drop g).drop (j + fm.length)).takeWhile keepChar).length →
      extractParam fm d buf =
        (((buf.drop g).drop (j + fm.length)).takeWhile keepChar).take 255 ∧
      (extractParam fm d buf).length = 255) ∧
    (∀ fm d buf, d.length ≤ 255 → (extractParam fm d buf).length ≤ 255) ∧
    (∀ q pid ts, (searchBody q pid ts).length ≤ 511) ∧
    (∀ u tok pid now, (authBody u tok pid now).length ≤ 511) ∧
    (∀ b, (httpResponse b).length ≤ 1023) := by
  refine ⟨?_, extractParam_len, searchBody_len, authBody_len, httpResponse_len⟩
  intro fm d buf g j hg hj hlong
  have he := extract_pos fm d buf g j hg hj
  refine ⟨he, ?_⟩
  rw [he, List.length_take]
  omega

set_option maxRecDepth 100000 in
theorem truncation_safety_spec_witness :
    extractParam ("q=".toList) ("default".toList) bigBuf =
      List.replicate 255 'a' ∧
    (extractParam ("q=".toList) ("default".toList) bigBuf).length = 255 := by
  have h := truncation_safety_spec.1 ("q=".toList) ("default".toList) bigBuf
    0 6 (by decide) (by decide) (by decide)
  exact ⟨h.1.trans (by decide), h.2⟩

/-- C4: for every request, the Token Issuer's generated token is exactly
32 characters long (buffer of 33, last byte the terminator) and every
character of it comes from the 62-character alphanumeric alphabet. -/
theorem token_shape_spec (rnd : Nat → Nat) :
    (generate_token rnd 33).length = 32 ∧
    (∀ c ∈ generate_token rnd 33, c ∈ charset) ∧
    charset.length = 62 ∧
    (∀ c ∈ charset, c.isAlphanum = true) := by
  refine ⟨?_, ?_, by decide, by decide⟩
  · simp [generate_token]
  · intro c hc
    simp only [generate_token, List.mem_map, List.mem_range] at hc
    obtain ⟨i, _, hci⟩ := hc
    rw [← hci]
    have hlt : rnd i % charset.length < charset.length :=
      Nat.mod_lt _ (by decide)
    rw [List.getD_eq_getElem?_getD, List.getElem?_eq_getElem hlt]
    exact List.getElem_mem hlt

theorem token_shape_spec_witness :
    (generate_token (fun _ => 0) 33).length = 32 ∧ 'a' ∈ charset :=
  ⟨(token_shape_spec (fun _ => 0)).1,
   (token_shape_spec (fun _ => 0)).2.1 'a' (by decide)⟩

/-- C2: for every parameter value, pid and time, the response written by
`send_response` (in both servers) carries a `Content-Length` equal to the
exact byte length of the body following its first blank line, and that body
is exactly the formatted JSON body. -/
theorem contentLength_spec (q u tok : List Char) (pid ts pid2 now : Nat) :
    (respBody (httpResponse (searchBody q pid ts)) = some (searchBody q pid ts) ∧
     respContentLength (httpResponse (searchBody q pid ts)) =
       some (searchBody q pid ts).length) ∧
    (respBody (httpResponse (authBody u tok pid2 now)) =
       some (authBody u tok pid2 now) ∧
     respContentLength (httpResponse (authBody u tok pid2 now)) =
       some (authBody u tok pid2 now).length) :=
  ⟨respSplit _ (searchBody_len q pid ts), respSplit _ (authBody_len u tok pid2 now)⟩

/-- C7: in the accept loop, a failed accept produces no events and merely
retries; an accepted connection is fully processed (recv, send, close)
before the next accept's outcome is examined; processing a longer outcome
trace is processing its parts in order, so the loop never stops by itself. -/
theorem accept_loop_spec (respond : List Char → List Char)
    (inputs : List (Option (List Char))) :
    (acceptLoop respond (none :: inputs) = acceptLoop respond inputs) ∧
    (∀ buf, acceptLoop respond (some buf :: inputs) =
      Event.evRecv buf :: Event.evSend (respond buf) :: Event.evClose ::
        acceptLoop respond inputs) ∧
    (∀ xs, acceptLoop respond (xs ++ inputs) =
      acceptLoop respond xs ++ acceptLoop respond inputs) ∧
    (∀ pid ts buf, acceptLoop (searchRespond pid ts) [some buf] =
      [Event.evRecv buf,
       Event.evSend (httpResponse (searchBody (searchQuery buf) pid ts)),
       Event.evClose]) :=
  ⟨rfl, fun _ => rfl, fun xs => acceptLoop_append respond xs inputs,
   fun _ _ _ => rfl⟩

/-- C8: a wrong argument count ends startup with the usage error and exit
status 1; a failure of socket creation, `setsockopt`, bind or listen ends
startup with that call's error message and exit status 1; and whenever
startup does not reach the listening state the process performs none of the
accept-loop actions. -/
theorem startup_error_spec (argc : Nat) (sys : SysOutcomes) :
    (argc ≠ 2 → startup argc sys = StartResult.usageError ∧
      exitCode (startup argc sys) = some 1) ∧
    (argc = 2 → sys.socketOk = false →
      startup argc sys = StartResult.fatalError ("Socket creation failed".toList) ∧
      exitCode (startup argc sys) = some 1) ∧
    (argc = 2 → sys.socketOk = true → sys.setsockoptOk = false →
      startup argc sys = StartResult.fatalError ("Setsockopt failed".toList) ∧
      exitCode (startup argc sys) = some 1) ∧
    (argc = 2 → sys.socketOk = true → sys.setsockoptOk = true →
      sys.bindOk = false →
      startup argc sys = StartResult.fatalError ("Bind failed".toList) ∧
      exitCode (startup argc sys) = some 1) ∧
    (argc = 2 → sys.socketOk = true → sys.setsockoptOk = true →
      sys.bindOk = true → sys.listenOk = false →
      startup argc sys = StartResult.fatalError ("Listen failed".toList) ∧
      exitCode (startup argc sys) = some 1) ∧
    (startup argc sys ≠ StartResult.listening →
      ∀ doSeed respond inputs,
        (runServer doSeed respond argc sys inputs).all
          (fun e => match e with | Event.evSeed _ => true | _ => false) = true) := by
  refine ⟨?_, ?_, ?_, ?_, ?_, ?_⟩
  · intro h
    simp [startup, exitCode, h]
  · intro h2 hs
    simp [startup, exitCode, h2, hs]
  · intro h2 hs ho
    simp [startup, exitCode, h2, hs, ho]
  · intro h2 hs ho hb
    simp [startup, exitCode, h2, hs, ho, hb]
  · intro h2 hs ho hb hl
    simp [startup, exitCode, h2, hs, ho, hb, hl]
  · intro hnl doSeed respond inputs
    unfold runServer
    by_cases ha : argc ≠ 2
    · simp [ha]
    · rw [if_neg ha]
      cases hst : startup argc sys with
      | listening => exact absurd hst hnl
      | usageError => cases doSeed <;> simp
      | fatalError msg => cases doSeed <;> simp

theorem startup_error_spec_witness :
    startup 3 ⟨true, true, true, true⟩ = StartResult.usageError ∧
    startup 2 ⟨false, true, true, true⟩ =
      StartResult.fatalError ("Socket creation failed".toList) ∧
    startup 2 ⟨true, true, false, true⟩ =
      StartResult.fatalError ("Bind failed".toList) ∧
    (runServer none searchQuery 2 ⟨true, true, true, false⟩ [some []]).all
      (fun e => match e with | Event.evSeed _ => true | _ => false) = true :=
  ⟨((startup_error_spec 3 ⟨true, true, true, true⟩).1 (by omega)).1,
   ((startup_error_spec 2 ⟨false, true, true, true⟩).2.1 rfl rfl).1,
   ((startup_error_spec 2 ⟨true, true, false, true⟩).2.2.2.1 rfl rfl rfl rfl).1,
   (startup_error_spec 2 ⟨true, true, true, false⟩).2.2.2.2.2 (by decide)
     none searchQuery [some []]⟩

/-- C5 counterexample: the claimed template writes the results array as
`["result1","result2","result3"]`, but the code's format string separates
the elements with a comma and a space, so already a short query produces a
different body than the claimed template. -/
theorem body_template_cex :
    searchBody ("hello".toList) 1 2 ≠ claimedSearchBody ("hello".toList) 1 2 := by
  decide

/-- C5 (amended): the Query Responder body is exactly
`{"query": "<q>", "results": ["result1", "result2", "result3"], "pid": <int>, "timestamp": <unix-seconds>}`
(with a space after each comma in the results array, as the format string
writes it) and the Token Issuer body is exactly
`{"user": "<user>", "token": "<token>", "pid": <int>, "expires": <unix-seconds+3600>}`
with the expiry equal to the current time plus 3600 seconds, whenever the
filled values have their normal sizes. -/
theorem body_template_spec (q u tok : List Char) (pid ts now : Nat)
    (hq : q.length ≤ 255) (hu : u.length ≤ 255) (htok : tok.length ≤ 32)
    (hpid : pid < 10 ^ 10) (hts : ts < 10 ^ 19) (hnow : now + 3600 < 10 ^ 19) :
    searchBody q pid ts =
      sBodyA ++ q ++ sBodyB ++ natDigits pid ++ sBodyC ++ natDigits ts ++ sBodyD ∧
    authBody u tok pid now =
      aBodyA ++ u ++ aBodyB ++ tok ++ aBodyC ++ natDigits pid ++ aBodyD ++
        natDigits (now + 3600) ++ aBodyE := by
  have hdp : (natDigits pid).length ≤ 10 := natDigits_len 9 pid (by simpa using hpid)
  have hdt : (natDigits ts).length ≤ 19 := natDigits_len 18 ts (by simpa using hts)
  have hdn : (natDigits (now + 3600)).length ≤ 19 :=
    natDigits_len 18 _ (by simpa using hnow)
  constructor
  · unfold searchBody
    apply List.take_of_length_le
    have hA : sBodyA.length = 11 := by decide
    have hB : sBodyB.length = 56 := by decide
    have hC : sBodyC.length = 15 := by decide
    have hD : sBodyD.length = 1 := by decide
    simp only [List.length_append, hA, hB, hC, hD]
    omega
  · unfold authBody
    apply List.take_of_length_le
    have hA : aBodyA.length = 10 := by decide
    have hB : aBodyB.length = 13 := by decide
    have hC : aBodyC.length = 10 := by decide
    have hD : aBodyD.length = 13 := by decide
    have hE : aBodyE.length = 1 := by decide
    simp only [List.length_append, hA, hB, hC, hD, hE]
    omega

theorem body_template_spec_witness :
    searchBody ("hi".toList) 3 4 =
      sBodyA ++ "hi".toList ++ sBodyB ++ natDigits 3 ++ sBodyC ++ natDigits 4 ++
        sBodyD ∧
    authBody ("bob".toList) ("t".toList) 3 5 =
      aBodyA ++ "bob".toList ++ aBodyB ++ "t".toList ++ aBodyC ++ natDigits 3 ++
        aBodyD ++ natDigits (5 + 3600) ++ aBodyE :=
  body_template_spec ("hi".toList) ("bob".toList) ("t".toList) 3 4 5
    (by decide) (by decide) (by decide) (by decide) (by decide) (by decide)

/-- C6 counterexample: assuming the raw generator outputs are uniform over
glibc's `rand` range `[0, 2^31)`, the number of raw outputs that select
charset index 0 differs from the number that select charset index 2,
because 62 does not divide 2^31 — so the 62 characters are not selected
with equal probability. -/
theorem token_distribution_cex :
    ¬ (selCount (2 ^ 31) 0 = selCount (2 ^ 31) 2) := by
  rw [selCount_closed (2 ^ 31) 0 (by omega), selCount_closed (2 ^ 31) 2 (by omega)]
  decide

/-- C6 (amended): each token character is selected by reducing a raw
generator output modulo 62; with raw outputs uniform over `[0, 2^31)` the
two charset characters at indices below `2^31 mod 62 = 2` ('a' and 'b') are
selected 34636834 times out of 2^31 and every other character 34636833
times — near-uniform but not exactly equal; and the Token Issuer seeds its
generator exactly once at process start with the time XOR the pid. -/
theorem token_distribution_spec :
    (∀ j < 62, selCount (2 ^ 31) j = if j < 2 then 34636834 else 34636833) ∧
    (∀ (sys : SysOutcomes) (respond : List Char → List Char)
        (inputs : List (Option (List Char))) (now pid : Nat),
      (runServer (some (now ^^^ pid)) respond 2 sys inputs).count
        (Event.evSeed (now ^^^ pid)) = 1) := by
  constructor
  · intro j hj
    rw [selCount_closed (2 ^ 31) j hj]
    have hm : (2 ^ 31 : Nat) % 62 = 2 := by norm_num
    have hd : (2 ^ 31 : Nat) / 62 = 34636833 := by norm_num
    rw [hm, hd]
    split_ifs <;> omega
  · intro sys respond inputs now pid
    unfold runServer
    rw [if_neg (by omega : ¬ ((2 : Nat) ≠ 2))]
    rw [List.count_append]
    cases hst : startup 2 sys with
    | listening =>
      rw [acceptLoop_no_seed respond (now ^^^ pid) inputs]
      simp
    | usageError => simp
    | fatalError msg => simp

theorem token_distribution_spec_witness :
    selCount (2 ^ 31) 5 = if 5 < 2 then 34636834 else 34636833 :=
  token_distribution_spec.1 5 (by omega)
